import Mathlib

/-!
Verification of the MESA-Docsynth document generation pipeline
(`src/generate.py` and `src/utils/load_names_locations.py`).

The Python code is shallowly embedded: pure helpers become Lean functions,
machine integers become `Nat` with explicit reductions modulo 2^32 where the
MD5 algorithm needs them, fallible calls become `Except`, and the external
collaborators (`PromptBuilder`, the LLM client, `random` and the wall clock)
become explicit function parameters.
-/

/-! ## MD5 (embedding of `hashlib.md5(...).hexdigest()` on UTF-8 input) -/

/-- Reduce modulo 2^32, the word size used by MD5. -/
def w32 (n : Nat) : Nat := n % 4294967296

/-- Rotate a 32-bit word (as a `Nat` below 2^32) left by `s` bits. -/
def rotl32 (x s : Nat) : Nat := w32 (x <<< s) + (x >>> (32 - s))

/-- The 64 MD5 round constants `K[i] = floor(2^32 * abs(sin(i+1)))`. -/
def md5KTable : List Nat :=
  [0xd76aa478, 0xe8c7b756, 0x242070db, 0xc1bdceee,
   0xf57c0faf, 0x4787c62a, 0xa8304613, 0xfd469501,
   0x698098d8, 0x8b44f7af, 0xffff5bb1, 0x895cd7be,
   0x6b901122, 0xfd987193, 0xa679438e, 0x49b40821,
   0xf61e2562, 0xc040b340, 0x265e5a51, 0xe9b6c7aa,
   0xd62f105d, 0x02441453, 0xd8a1e681, 0xe7d3fbc8,
   0x21e1cde6, 0xc33707d6, 0xf4d50d87, 0x455a14ed,
   0xa9e3e905, 0xfcefa3f8, 0x676f02d9, 0x8d2a4c8a,
   0xfffa3942, 0x8771f681, 0x6d9d6122, 0xfde5380c,
   0xa4beea44, 0x4bdecfa9, 0xf6bb4b60, 0xbebfbc70,
   0x289b7ec6, 0xeaa127fa, 0xd4ef3085, 0x04881d05,
   0xd9d4d039, 0xe6db99e5, 0x1fa27cf8, 0xc4ac5665,
   0xf4292244, 0x432aff97, 0xab9423a7, 0xfc93a039,
   0x655b59c3, 0x8f0ccc92, 0xffeff47d, 0x85845dd1,
   0x6fa87e4f, 0xfe2ce6e0, 0xa3014314, 0x4e0811a1,
   0xf7537e82, 0xbd3af235, 0x2ad7d2bb, 0xeb86d391]

/-- The per-round left-rotation amounts of MD5. -/
def md5STable : List Nat :=
  [7, 12, 17, 22, 7, 12, 17, 22, 7, 12, 17, 22, 7, 12, 17, 22,
   5, 9, 14, 20, 5, 9, 14, 20, 5, 9, 14, 20, 5, 9, 14, 20,
   4, 11, 16, 23, 4, 11, 16, 23, 4, 11, 16, 23, 4, 11, 16, 23,
   6, 10, 15, 21, 6, 10, 15, 21, 6, 10, 15, 21, 6, 10, 15, 21]

/-- One MD5 round applied to the state `(A, B, C, D)` with message-word
lookup `M`. -/
def md5Round (M : Nat → Nat) (st : Nat × Nat × Nat × Nat) (i : Nat) :
    Nat × Nat × Nat × Nat :=
  let A := st.1
  let B := st.2.1
  let C := st.2.2.1
  let D := st.2.2.2
  let Fg : Nat × Nat :=
    if i < 16 then ((B &&& C) ||| ((B ^^^ 0xffffffff) &&& D), i)
    else if i < 32 then ((D &&& B) ||| ((D ^^^ 0xffffffff) &&& C), (5 * i + 1) % 16)
    else if i < 48 then (B ^^^ C ^^^ D, (3 * i + 5) % 16)
    else (C ^^^ (B ||| (D ^^^ 0xffffffff)), (7 * i) % 16)
  let F2 := w32 (Fg.1 + A + md5KTable.getD i 0 + M Fg.2)
  (D, w32 (B + rotl32 F2 (md5STable.getD i 0)), B, C)

/-- Little-endian 32-bit word `g` of a 64-byte chunk. -/
def chunkWord (chunk : List Nat) (g : Nat) : Nat :=
  chunk.getD (4 * g) 0 + 256 * chunk.getD (4 * g + 1) 0 +
    65536 * chunk.getD (4 * g + 2) 0 + 16777216 * chunk.getD (4 * g + 3) 0

/-- Process one 64-byte chunk, updating the running MD5 state. -/
def md5ProcessChunk (st : Nat × Nat × Nat × Nat) (chunk : List Nat) :
    Nat × Nat × Nat × Nat :=
  let r := (List.range 64).foldl (md5Round (chunkWord chunk)) st
  (w32 (st.1 + r.1), w32 (st.2.1 + r.2.1), w32 (st.2.2.1 + r.2.2.1),
   w32 (st.2.2.2 + r.2.2.2))

/-- Split a byte list into 64-byte chunks, with structural fuel so that the
function reduces inside the kernel; `fuel = l.length` always suffices. -/
def toChunksFuel : Nat → List Nat → List (List Nat)
  | 0, _ => []
  | _ + 1, [] => []
  | n + 1, l => (l.take 64) :: toChunksFuel n (l.drop 64)

/-- Split a byte list into 64-byte chunks. -/
def toChunks (l : List Nat) : List (List Nat) := toChunksFuel l.length l

/-- A 32-bit word as four little-endian bytes. -/
def toLE4 (x : Nat) : List Nat :=
  [x % 256, x / 256 % 256, x / 65536 % 256, x / 16777216 % 256]

/-- A 64-bit value as eight little-endian bytes. -/
def toLE8 (x : Nat) : List Nat :=
  toLE4 (x % 4294967296) ++ toLE4 (x / 4294967296 % 4294967296)

/-- MD5 digest (16 bytes) of a byte list. -/
def md5Bytes (msg : List Nat) : List Nat :=
  let padZeros := (120 - (msg.length + 1) % 64) % 64
  let padded := msg ++ (128 :: List.replicate padZeros 0) ++
    toLE8 (8 * msg.length % 18446744073709551616)
  let st := (toChunks padded).foldl md5ProcessChunk
    (0x67452301, 0xefcdab89, 0x98badcfe, 0x10325476)
  toLE4 st.1 ++ toLE4 st.2.1 ++ toLE4 st.2.2.1 ++ toLE4 st.2.2.2

/-- Lowercase hexadecimal digit for a value below 16. -/
def hexDigit (n : Nat) : Char :=
  if n < 10 then Char.ofNat (48 + n) else Char.ofNat (87 + n)

/-- Lowercase hex rendering of a byte list, two digits per byte. -/
def bytesToHex (bs : List Nat) : List Char :=
  bs.foldr (fun b acc => hexDigit (b / 16) :: hexDigit (b % 16) :: acc) []

/-- UTF-8 encoding of one Unicode scalar value (as `str.encode` produces). -/
def utf8EncodeChar (c : Char) : List Nat :=
  let n := c.toNat
  if n < 128 then [n]
  else if n < 2048 then [192 + n / 64, 128 + n % 64]
  else if n < 65536 then [224 + n / 4096, 128 + n / 64 % 64, 128 + n % 64]
  else [240 + n / 262144, 128 + n / 4096 % 64, 128 + n / 64 % 64, 128 + n % 64]

/-- UTF-8 encoding of a string. -/
def utf8Encode (s : String) : List Nat :=
  s.data.foldr (fun c acc => utf8EncodeChar c ++ acc) []

/-- Embedding of `hashlib.md5(s.encode('utf-8')).hexdigest()`. -/
def md5Hex (s : String) : String :=
  ⟨bytesToHex (md5Bytes (utf8Encode s))⟩

/-! ## `save_document` (src/generate.py lines 55-85) -/

/-- The JSON document written by `save_document`: the output file name and
the ordered key/value pairs of the serialized object. -/
structure SavedDoc where
  fileName : String
  fields : List (String × String)
deriving DecidableEq, Repr

/-- Embedding of `save_document`: builds the MD5-keyed JSON record.
If `content` is `none` (prompt-only mode) the hash is taken over the prompt
and no `content` key is emitted. -/
def save_document (structure_name profile_id timestamp prompt : String)
    (content : Option String) : SavedDoc :=
  let md5_hash := match content with
    | some c => md5Hex c
    | none => md5Hex prompt
  let base := [("doc_id", md5_hash), ("document_name", structure_name),
    ("document_sourcedb", "DocSynth"), ("profile", profile_id),
    ("timestamp", timestamp), ("prompt", prompt)]
  let fields := match content with
    | some c => base ++ [("content", c)]
    | none => base
  ⟨md5_hash ++ ".json", fields⟩

/-! ## `extract_output_content` (src/generate.py lines 37-52)

The Python code runs `re.search(r"<output>(.*?)</output>", text, re.DOTALL)`.
The leftmost match of this pattern starts at the first occurrence of
`<output>` that is followed by `</output>`, and the non-greedy group ends at
the first `</output>` after it.  We embed this directly: find the first
occurrence of the opening tag, then the first occurrence of the closing tag
in the remainder. -/

/-- Python ASCII whitespace as stripped by `str.strip()`. -/
def isSpaceChar (c : Char) : Bool :=
  c == ' ' || c == '\t' || c == '\n' || c == '\x0d' ||
    c == '\x0b' || c == '\x0c'

/-- Embedding of `str.strip()`: drop leading and trailing whitespace. -/
def pyStrip (s : List Char) : List Char :=
  ((s.dropWhile isSpaceChar).reverse.dropWhile isSpaceChar).reverse

/-- Split a string at the first occurrence of `pat`: returns the part before
the occurrence and the part after it, or `none` when `pat` does not occur. -/
def splitFirst (pat : List Char) : List Char → Option (List Char × List Char)
  | [] => if pat.isPrefixOf ([] : List Char) then some ([], []) else none
  | c :: t =>
    if pat.isPrefixOf (c :: t) then some ([], (c :: t).drop pat.length)
    else (splitFirst pat t).map (fun pr => (c :: pr.1, pr.2))

/-- Whether `pat` occurs as a contiguous substring of `s`. -/
def containsSub (pat s : List Char) : Bool := (splitFirst pat s).isSome

/-- The opening tag searched by `extract_output_content`. -/
def openTag : List Char := "<output>".data

/-- The closing tag searched by `extract_output_content`. -/
def closeTag : List Char := "</output>".data

/-- Embedding of `extract_output_content`: the stripped group of the first
`<output>...</output>` match, or the whole stripped input when the pattern
has no match. -/
def extract_output_content (response_text : List Char) : List Char :=
  match splitFirst openTag response_text with
  | some pr =>
    match splitFirst closeTag pr.2 with
    | some qr => pyStrip qr.1
    | none => pyStrip response_text
  | none => pyStrip response_text

/-! ## `generate_timestamp` (src/generate.py lines 88-92) -/

/-- A wall-clock reading, as consumed by `datetime.now().strftime`. -/
structure DateTime where
  year : Nat
  month : Nat
  day : Nat
  hour : Nat
  minute : Nat
  second : Nat
  microsecond : Nat
deriving DecidableEq, Repr

/-- Left-pad the decimal rendering of `n` with zeros to width `w`. -/
def padNat (w n : Nat) : String :=
  ⟨List.replicate (w - (toString n).length) (Char.ofNat 48)⟩ ++ toString n

/-- The strftime format string `%Y%m%d_%H%M%S_%f` applied to a time. -/
def strftimeYmdHMSf (t : DateTime) : String :=
  padNat 4 t.year ++ padNat 2 t.month ++ padNat 2 t.day ++ "_" ++
    padNat 2 t.hour ++ padNat 2 t.minute ++ padNat 2 t.second ++ "_" ++
    padNat 6 t.microsecond

/-- Embedding of `generate_timestamp`: the formatted clock reading truncated
to its first 19 characters. -/
def generate_timestamp (t : DateTime) : String :=
  (strftimeYmdHMSf t).take 19

/-! ## `NamesLocationsLoader` (src/utils/load_names_locations.py)

The YAML loading in `__init__` is external I/O; the loaded lists become the
fields of the structure.  `random.choice` draws a uniformly random index
below the list length; the random draw is embedded as an explicit natural
number reduced modulo the length, and an empty list gives `none` (Python
raises `IndexError` there). -/

/-- The four configured lists loaded from `names_locations.yml`. -/
structure NamesLocationsLoader where
  patient_names : List String
  clinician_names : List String
  providers : List String
  wards_clinics : List String

/-- One sampled output of `NamesLocationsLoader.sample`. -/
structure SampledNames where
  patient_name : String
  clinician_name : String
  provider : String
  ward_clinic : String
deriving DecidableEq, Repr

/-- Embedding of `random.choice`: pick the element at the random draw `k`
reduced modulo the length; `none` on an empty list. -/
def pyChoice (l : List String) (k : Nat) : Option String :=
  if l.isEmpty then none else some (l.getD (k % l.length) "")

/-- Embedding of `NamesLocationsLoader.sample`: one independent draw from
each of the four lists, with the four random draws made explicit. -/
def NamesLocationsLoader.sample (L : NamesLocationsLoader)
    (r : Nat × Nat × Nat × Nat) : Option SampledNames := do
  let p ← pyChoice L.patient_names r.1
  let c ← pyChoice L.clinician_names r.2.1
  let pv ← pyChoice L.providers r.2.2.1
  let w ← pyChoice L.wards_clinics r.2.2.2
  some ⟨p, c, pv, w⟩

/-! ## `get_existing_profile_ids` (src/generate.py lines 95-116)

Each `*.json` file in the output directory is embedded by what reading it
produces: `malformed` when `json.load` raises `JSONDecodeError` (caught:
warning, file skipped), `nonObject` when the file parses to a non-dict value
(`data.get` then raises an uncaught `AttributeError`), and `object` with its
string key/value pairs otherwise. -/

/-- An existing file in the output directory, by parse outcome. -/
inductive ExistingFile where
  | malformed (name : String)
  | nonObject (name : String)
  | object (name : String) (fields : List (String × String))
deriving DecidableEq, Repr

/-- Whether the file parses to a non-dict JSON value. -/
def ExistingFile.isNonObject : ExistingFile → Bool
  | .nonObject _ => true
  | _ => false

/-- Whether `json.load` fails on the file. -/
def ExistingFile.isMalformed : ExistingFile → Bool
  | .malformed _ => true
  | _ => false

/-- Add an id to the set (embedded as a duplicate-free list) if absent. -/
def insertId (pid : String) (acc : List String) : List String :=
  if acc.contains pid then acc else acc ++ [pid]

/-- The scanning loop of `get_existing_profile_ids`: accumulates the set of
profile ids and the number of warnings logged; a non-dict file raises an
uncaught `AttributeError`, embedded as `Except.error`. -/
def scanGo (acc : List String) (warns : Nat) :
    List ExistingFile → Except String (List String × Nat)
  | [] => Except.ok (acc, warns)
  | f :: fs =>
    match f with
    | .malformed _ => scanGo acc (warns + 1) fs
    | .nonObject n => Except.error ("AttributeError: " ++ n)
    | .object _ kvs =>
      match kvs.lookup "profile" with
      | some pid => if pid = "" then scanGo acc warns fs
                    else scanGo (insertId pid acc) warns fs
      | none => scanGo acc warns fs

/-- Embedding of `get_existing_profile_ids`: scan the directory listing,
returning the collected profile ids and the warning count, or the uncaught
error that aborts the scan. -/
def get_existing_profile_ids (files : List ExistingFile) :
    Except String (List String × Nat) :=
  scanGo [] 0 files

/-! ## The driver loop of `main` (src/generate.py lines 119-263)

External collaborators are embedded as explicit function parameters:
`bp` for `builder.build_prompt` (returning `(prompt, structure_name,
profile_id)`, or the exception it raises — the call sits *outside* the
`try` block in the source), `llm` for the optional LLM client whose
`generate` may raise, `clock` for `datetime.now()` indexed by the loop
counter, and `pick` for `builder.get_random_profile()`. -/

/-- A profile held by the profile loader: its identifier plus the opaque
payload used to build a prompt. -/
structure Profile where
  id : String
  body : String
deriving DecidableEq, Repr

/-- What happened to one processed profile: the LLM call raised (caught:
logged and printed with `structure_name`/`profile_id`, profile skipped), or
a document was saved. -/
inductive PerDocResult where
  | errored (structure_name profile_id err : String)
  | saved (doc : SavedDoc)
deriving DecidableEq, Repr

/-- One generation attempt of the driver loop: the profile it processed and
its result. -/
structure Outcome where
  profile : Profile
  result : PerDocResult
deriving DecidableEq, Repr

/-- The documents actually written by a run: the saved docs among the
outcomes (an errored profile writes no file). -/
def savedDocs (L : List Outcome) : List SavedDoc :=
  L.filterMap (fun o => match o.result with
    | .saved d => some d
    | .errored _ _ _ => none)

/-- Boolean success test for an `Except` value. -/
def isOkB {α β : Type} : Except α β → Bool
  | .ok _ => true
  | .error _ => false

/-- The sequential loop of `main` (lines 207-232): `for i, profile in
enumerate(profiles, 1)`, breaking once `i > total_docs`.  `bp` is called
outside the `try` block, so its error aborts the run; an error from the LLM
client is caught and recorded, and the loop continues. -/
def seqGo (bp : Profile → Except String (String × String × String))
    (llm : Option (String → Except String String)) (clock : Int → DateTime)
    (total : Int) (i : Int) :
    List Profile → Except String (List Outcome)
  | [] => Except.ok []
  | p :: ps =>
    if i > total then Except.ok []
    else
      match bp p with
      | .error e => Except.error e
      | .ok tr =>
        let ts := generate_timestamp (clock i)
        match llm with
        | none =>
          (seqGo bp llm clock total (i + 1) ps).map
            (fun L => ⟨p, .saved (save_document tr.2.1 tr.2.2 ts tr.1 none)⟩ :: L)
        | some g =>
          match g tr.1 with
          | .error e =>
            (seqGo bp llm clock total (i + 1) ps).map
              (fun L => ⟨p, .errored tr.2.1 tr.2.2 e⟩ :: L)
          | .ok resp =>
            (seqGo bp llm clock total (i + 1) ps).map
              (fun L => ⟨p, .saved (save_document tr.2.1 tr.2.2 ts tr.1
                (some ⟨extract_output_content resp.data⟩))⟩ :: L)

/-- The random loop of `main` (lines 234-258): `for i in range(1,
total_docs + 1)`, drawing `pick i` each iteration; the per-item error
handling is identical to the sequential loop. -/
def randGo (bp : Profile → Except String (String × String × String))
    (llm : Option (String → Except String String)) (clock : Int → DateTime)
    (pick : Int → Profile) (total : Int) (i : Int) :
    Except String (List Outcome) :=
  if _h : i > total then Except.ok []
  else
    let p := pick i
    match bp p with
    | .error e => Except.error e
    | .ok tr =>
      let ts := generate_timestamp (clock i)
      match llm with
      | none =>
        (randGo bp llm clock pick total (i + 1)).map
          (fun L => ⟨p, .saved (save_document tr.2.1 tr.2.2 ts tr.1 none)⟩ :: L)
      | some g =>
        match g tr.1 with
        | .error e =>
          (randGo bp llm clock pick total (i + 1)).map
            (fun L => ⟨p, .errored tr.2.1 tr.2.2 e⟩ :: L)
        | .ok resp =>
          (randGo bp llm clock pick total (i + 1)).map
            (fun L => ⟨p, .saved (save_document tr.2.1 tr.2.2 ts tr.1
              (some ⟨extract_output_content resp.data⟩))⟩ :: L)
termination_by (total + 1 - i).toNat
decreasing_by omega

/-- Modelled from the spec: `ProfileLoader.filter_existing_profiles`
(called from `main` but defined in `utils/build_prompt.py`, which is not in
the sources) removes the profiles whose identifier is among the existing
ids and returns how many it removed. -/
def filter_existing_profiles (existing : List String)
    (profiles : List Profile) : List Profile × Nat :=
  let kept := profiles.filter (fun p => ¬ existing.contains p.id)
  (kept, profiles.length - kept.length)

/-- The profile-selection section of `pipeline.yml` used by the loop logic
of `main`: `mode`, `count` and the output `skip_existing` flag. -/
structure SelectionConfig where
  mode : String
  count : Int
  skip_existing : Bool

/-- The driver logic of `main` after client initialisation (lines 179-258):
optionally filter out already-generated profiles, compute `total_docs`
(`count`, or the remaining profile count when `count = -1`), then run the
loop of the configured mode. -/
def mainRun (cfg : SelectionConfig)
    (bp : Profile → Except String (String × String × String))
    (llm : Option (String → Except String String)) (clock : Int → DateTime)
    (pick : Int → Profile) (outputFiles : List ExistingFile)
    (profiles : List Profile) : Except String (List Outcome) :=
  match (if cfg.skip_existing then
      (get_existing_profile_ids outputFiles).map
        (fun pr => (filter_existing_profiles pr.1 profiles).1)
    else Except.ok profiles) with
  | .error e => Except.error e
  | .ok remaining =>
    let total : Int := if cfg.count = -1 then remaining.length else cfg.count
    if cfg.mode = "sequential" then seqGo bp llm clock total 1 remaining
    else if cfg.mode = "random" then randGo bp llm clock pick total 1
    else Except.ok []

/-! ## Concrete fixtures used by witnesses and counterexamples -/

/-- A first test profile. -/
def profA : Profile := ⟨"p1", "body one"⟩

/-- A second test profile. -/
def profB : Profile := ⟨"p2", "body two"⟩

/-- A prompt builder that always succeeds. -/
def bp0 : Profile → Except String (String × String × String) :=
  fun p => Except.ok ("PROMPT " ++ p.body, "letter", p.id)

/-- A prompt builder that raises on profile `p1` and succeeds otherwise. -/
def bpBad : Profile → Except String (String × String × String) :=
  fun p => if p.id = "p1" then Except.error "boom" else bp0 p

/-- An LLM client whose `generate` always raises. -/
def llmFail : String → Except String String := fun _ => Except.error "llm down"

/-- A fixed wall clock. -/
def clock0 : Int → DateTime := fun _ => ⟨2024, 1, 1, 0, 0, 0, 0⟩

/-- A fixed random profile picker. -/
def pick0 : Int → Profile := fun _ => profA

/-- A pattern has no nontrivial border: no proper nonempty suffix of it is
also a prefix of it.  Both literal tags satisfy this, which makes the first
occurrence of a tag in `a ++ tag ++ b` with `tag` not in `a` start exactly
at `a.length`. -/
def Borderless (pat : List Char) : Prop :=
  ∀ k, k < pat.length → 0 < k → pat.drop k ≠ pat.take (pat.length - k)

/-- A concrete loader used by witnesses. -/
def loader0 : NamesLocationsLoader :=
  ⟨["Ada Lovelace", "Grace Hopper"], ["Dr Smith"], ["St Mary"],
   ["Ward 3", "Clinic B"]⟩

set_option maxRecDepth 100000 in
/-- Sanity check of the MD5 embedding against the standard test vector. -/
theorem md5Hex_abc : md5Hex "abc" = "900150983cd24fb0d6963f7d28e17f72" := by
  decide

set_option maxRecDepth 100000 in
/-- Second sanity check: MD5 of the empty string. -/
theorem md5Hex_empty : md5Hex "" = "d41d8cd98f00b204e9800998ecf8427e" := by
  decide

/-! ## List helper lemmas -/

theorem isPrefixOf_eq_true (p : List Char) :
    ∀ s : List Char, p.isPrefixOf s = true ↔ ∃ t, s = p ++ t := by
  induction p with
  | nil => intro s; simp [List.isPrefixOf]
  | cons a as ih =>
    intro s
    cases s with
    | nil => simp [List.isPrefixOf]
    | cons b bs =>
      simp only [List.isPrefixOf, Bool.and_eq_true, beq_iff_eq]
      constructor
      · rintro ⟨rfl, h⟩
        obtain ⟨t, rfl⟩ := (ih bs).mp h
        exact ⟨t, rfl⟩
      · rintro ⟨t, ht⟩
        injection ht with h1 h2
        exact ⟨h1.symm, (ih bs).mpr ⟨t, h2⟩⟩

theorem append_drop_self (p t : List Char) : (p ++ t).drop p.length = t := by
  induction p with
  | nil => rfl
  | cons a as ih =>
    simp only [List.cons_append, List.length_cons, List.drop_succ_cons]
    exact ih

/-! ## Claim theorems for `save_document` -/

/-- C1: the `doc_id` field written by `save_document` is the MD5 hex digest
of `content` when content is present, else of `prompt`; the file is named
exactly `<doc_id>.json`; and for a fixed content the `doc_id` is the same
across repeated saves, whatever the other arguments are. -/
theorem claim_C1 :
    ∀ (sn pid ts pr : String) (c : Option String),
      (save_document sn pid ts pr c).fields.lookup "doc_id" =
        some (match c with | some s => md5Hex s | none => md5Hex pr) ∧
      (save_document sn pid ts pr c).fileName =
        (match c with | some s => md5Hex s | none => md5Hex pr) ++ ".json" ∧
      ∀ (s sn2 pid2 ts2 pr2 : String),
        (save_document sn pid ts pr (some s)).fields.lookup "doc_id" =
          (save_document sn2 pid2 ts2 pr2 (some s)).fields.lookup "doc_id" := by
  intro sn pid ts pr c
  refine ⟨?_, ?_, ?_⟩
  · cases c <;> rfl
  · cases c <;> rfl
  · intro s sn2 pid2 ts2 pr2; rfl

/-- C8: a saved document holds exactly the keys `doc_id`, `document_name`,
`document_sourcedb` (constant value `"DocSynth"`), `profile`, `timestamp`
and `prompt`, plus `content` exactly when content was generated; and the
timestamp value is the `%Y%m%d_%H%M%S_%f` rendering of the clock truncated
to its first 19 characters. -/
theorem claim_C8 :
    ∀ (sn pid pr : String) (c : Option String) (t : DateTime),
      (save_document sn pid (generate_timestamp t) pr c).fields.map Prod.fst =
        ["doc_id", "document_name", "document_sourcedb", "profile",
         "timestamp", "prompt"] ++
          (match c with | some _ => ["content"] | none => []) ∧
      (save_document sn pid (generate_timestamp t) pr c).fields.lookup
          "document_sourcedb" = some "DocSynth" ∧
      (save_document sn pid (generate_timestamp t) pr c).fields.lookup
          "timestamp" = some ((strftimeYmdHMSf t).take 19) ∧
      (save_document sn pid (generate_timestamp t) pr c).fields.lookup
          "content" = c := by
  intro sn pid pr c t
  refine ⟨?_, ?_, ?_, ?_⟩ <;> cases c <;> rfl

/-! ## Lemmas about `splitFirst` and `containsSub` -/

theorem splitFirst_sound (pat : List Char) :
    ∀ s a b : List Char, splitFirst pat s = some (a, b) → s = a ++ (pat ++ b) := by
  intro s
  induction s with
  | nil =>
    intro a b h
    simp only [splitFirst] at h
    split at h
    case isTrue hp =>
      obtain ⟨t, ht⟩ := (isPrefixOf_eq_true pat []).mp hp
      injection h with h2
      injection h2 with ha hb
      subst ha; subst hb
      have h0 := List.append_eq_nil.mp ht.symm
      simp [h0.1]
    case isFalse hp => exact absurd h (by simp)
  | cons c t ih =>
    intro a b h
    simp only [splitFirst] at h
    split at h
    case isTrue hp =>
      obtain ⟨u, hu⟩ := (isPrefixOf_eq_true pat (c :: t)).mp hp
      injection h with h2
      injection h2 with ha hb
      subst ha
      rw [hu, append_drop_self] at hb
      subst hb
      simp [hu]
    case isFalse hp =>
      cases hsp : splitFirst pat t with
      | none => rw [hsp] at h; exact absurd h (by simp)
      | some pr =>
        rw [hsp] at h
        simp at h
        have h3 := ih pr.1 pr.2 (by rw [hsp])
        rw [← h.1, ← h.2]
        simp [h3]

theorem splitFirst_isSome_of_pre (pat s : List Char)
    (h : pat.isPrefixOf s = true) : (splitFirst pat s).isSome := by
  cases s <;> simp [splitFirst, h]

theorem splitFirst_complete (pat : List Char) :
    ∀ a b : List Char, (splitFirst pat (a ++ (pat ++ b))).isSome := by
  intro a
  induction a with
  | nil =>
    intro b
    exact splitFirst_isSome_of_pre pat (pat ++ b)
      ((isPrefixOf_eq_true pat (pat ++ b)).mpr ⟨b, rfl⟩)
  | cons c a2 ih =>
    intro b
    by_cases hp : pat.isPrefixOf (c :: (a2 ++ (pat ++ b))) = true
    · simp [splitFirst, hp]
    · have h2 := ih b
      cases hsp2 : splitFirst pat (a2 ++ (pat ++ b)) with
      | none => rw [hsp2] at h2; exact absurd h2 (by simp)
      | some pr => simp [splitFirst, hp, hsp2]

theorem containsSub_of_pre (pat a : List Char)
    (h : pat.isPrefixOf a = true) : containsSub pat a = true := by
  unfold containsSub
  exact splitFirst_isSome_of_pre pat a h

theorem append_take_self (p t : List Char) : (p ++ t).take p.length = p := by
  induction p with
  | nil => rfl
  | cons a as ih => simp [ih]

theorem take_append_le (n : Nat) (p t : List Char) (h : n ≤ p.length) :
    (p ++ t).take n = p.take n := by
  induction p generalizing n with
  | nil =>
    have : n = 0 := Nat.le_zero.mp h
    simp [this]
  | cons a as ih =>
    cases n with
    | zero => rfl
    | succ m => simp [ih m (Nat.succ_le_succ_iff.mp h)]

theorem take_append_ge (n : Nat) (p t : List Char) (h : p.length ≤ n) :
    (p ++ t).take n = p ++ t.take (n - p.length) := by
  induction p generalizing n with
  | nil => simp
  | cons a as ih =>
    cases n with
    | zero => exact absurd h (by simp)
    | succ m =>
      simp only [List.cons_append, List.take_succ_cons, List.length_cons]
      rw [ih m (Nat.succ_le_succ_iff.mp h)]
      simp [Nat.succ_sub_succ]

theorem drop_append_le (n : Nat) (p t : List Char) (h : n ≤ p.length) :
    (p ++ t).drop n = p.drop n ++ t := by
  induction p generalizing n with
  | nil =>
    have : n = 0 := Nat.le_zero.mp h
    simp [this]
  | cons a as ih =>
    cases n with
    | zero => rfl
    | succ m => simp [ih m (Nat.succ_le_succ_iff.mp h)]

theorem take_of_length_le (n : Nat) (l : List Char) (h : l.length ≤ n) :
    l.take n = l := by
  induction l generalizing n with
  | nil => simp
  | cons a as ih =>
    cases n with
    | zero => exact absurd h (by simp)
    | succ m => simp [ih m (Nat.succ_le_succ_iff.mp h)]

theorem containsSub_cons (pat : List Char) (c : Char) (t : List Char) :
    containsSub pat (c :: t) = (pat.isPrefixOf (c :: t) || containsSub pat t) := by
  unfold containsSub
  cases hx : pat.isPrefixOf (c :: t) with
  | true => simp [splitFirst, hx]
  | false => cases hsp : splitFirst pat t <;> simp [splitFirst, hx, hsp]

/-- The central matching lemma: when `pat` has no nontrivial border and does
not occur in `a`, the first occurrence of `pat` in `a ++ pat ++ b` is the
explicit one, so `splitFirst` cuts exactly there. -/
theorem splitFirst_at_first (pat : List Char) (hb : Borderless pat) :
    ∀ a b : List Char, containsSub pat a = false →
      splitFirst pat (a ++ (pat ++ b)) = some (a, b) := by
  intro a
  induction a with
  | nil =>
    intro b _
    have hp : pat.isPrefixOf (pat ++ b) = true :=
      (isPrefixOf_eq_true pat (pat ++ b)).mpr ⟨b, rfl⟩
    cases hpb : pat ++ b with
    | nil =>
      obtain ⟨h1, h2⟩ := List.append_eq_nil.mp hpb
      subst h1; subst h2
      decide
    | cons c t =>
      rw [hpb] at hp
      have hstep : splitFirst pat (c :: t) =
          some ([], (c :: t).drop pat.length) := by
        simp [splitFirst, hp]
      rw [List.nil_append, hstep, ← hpb, append_drop_self]
  | cons c a2 ih =>
    intro b hc
    rw [containsSub_cons] at hc
    have hnp : pat.isPrefixOf (c :: a2) = false :=
      (Bool.or_eq_false_iff.mp hc).1
    have hc2 : containsSub pat a2 = false := (Bool.or_eq_false_iff.mp hc).2
    have hkey : pat.isPrefixOf (c :: (a2 ++ (pat ++ b))) = false := by
      cases hx : pat.isPrefixOf (c :: (a2 ++ (pat ++ b))) with
      | false => rfl
      | true =>
        exfalso
        obtain ⟨u, hu⟩ := (isPrefixOf_eq_true _ _).mp hx
        have hu2 : (c :: a2) ++ (pat ++ b) = pat ++ u := hu
        rcases le_or_lt pat.length (a2.length + 1) with hle | hlt
        · -- the occurrence at position 0 would lie inside `c :: a2`,
          -- contradicting `hnp`
          have htk := congrArg (List.take pat.length) hu2
          rw [take_append_le pat.length (c :: a2) (pat ++ b)
              (by simpa using hle), append_take_self] at htk
          have hpre : pat.isPrefixOf (c :: a2) = true := by
            refine (isPrefixOf_eq_true _ _).mpr
              ⟨(c :: a2).drop pat.length, ?_⟩
            conv_lhs => rw [← List.take_append_drop pat.length (c :: a2)]
            rw [htk]
          rw [hnp] at hpre
          exact Bool.false_ne_true hpre
        · -- the occurrence at position 0 would force a nontrivial border
          -- of `pat`, contradicting `hb`
          have hd := congrArg (List.drop (a2.length + 1)) hu2
          have hlen : (c :: a2).length = a2.length + 1 := rfl
          rw [show List.drop (a2.length + 1) ((c :: a2) ++ (pat ++ b)) =
              List.drop (c :: a2).length ((c :: a2) ++ (pat ++ b)) from rfl,
            append_drop_self] at hd
          rw [drop_append_le (a2.length + 1) pat u
              (Nat.le_of_lt hlt)] at hd
          have htt := congrArg (List.take (pat.length - (a2.length + 1))) hd
          rw [take_append_le (pat.length - (a2.length + 1)) pat b
              (Nat.sub_le _ _)] at htt
          rw [take_append_le (pat.length - (a2.length + 1))
              (pat.drop (a2.length + 1)) u
              (by rw [List.length_drop])] at htt
          rw [take_of_length_le (pat.length - (a2.length + 1))
              (pat.drop (a2.length + 1))
              (by rw [List.length_drop])] at htt
          exact hb (a2.length + 1) hlt (Nat.succ_pos _) htt.symm
    simp [splitFirst, hkey, ih b hc2]

theorem openTag_borderless : Borderless openTag := by
  unfold Borderless
  decide

theorem closeTag_borderless : Borderless closeTag := by
  unfold Borderless
  decide

/-- The behaviour of `extract_output_content` on any input holding a
canonical first tagged section: the opening tag does not occur in `a` and
the closing tag does not occur in `x`, so the regex match group is exactly
`x`. -/
theorem extract_first_section (a x b : List Char)
    (ha : containsSub openTag a = false)
    (hx : containsSub closeTag x = false) :
    extract_output_content (a ++ (openTag ++ (x ++ (closeTag ++ b)))) =
      pyStrip x := by
  have h1 : splitFirst openTag (a ++ (openTag ++ (x ++ (closeTag ++ b)))) =
      some (a, x ++ (closeTag ++ b)) :=
    splitFirst_at_first openTag openTag_borderless a (x ++ (closeTag ++ b)) ha
  have h2 : splitFirst closeTag (x ++ (closeTag ++ b)) = some (x, b) :=
    splitFirst_at_first closeTag closeTag_borderless x b hx
  simp [extract_output_content, h1, h2]

/-- C3: for an input containing a tagged section `<output>X</output>` — the
canonical first one: no opening tag occurs earlier and `X` contains no
closing tag — `extract_output_content` returns `X` stripped of leading and
trailing whitespace; for an input containing no tagged section at all it
returns the full input stripped. -/
theorem claim_C3 :
    (∀ a x b : List Char, containsSub openTag a = false →
        containsSub closeTag x = false →
        extract_output_content (a ++ (openTag ++ (x ++ (closeTag ++ b)))) =
          pyStrip x) ∧
    (∀ s : List Char,
        (¬ ∃ a x b : List Char,
          s = a ++ (openTag ++ (x ++ (closeTag ++ b)))) →
        extract_output_content s = pyStrip s) := by
  constructor
  · exact extract_first_section
  · intro s hno
    unfold extract_output_content
    cases h1 : splitFirst openTag s with
    | none => rfl
    | some pr =>
      cases h2 : splitFirst closeTag pr.2 with
      | none =>
        exact (by rw [h2] :
          (match splitFirst closeTag pr.2 with
            | some qr => pyStrip qr.1
            | none => pyStrip s) = pyStrip s)
      | some qr =>
        exfalso
        apply hno
        refine ⟨pr.1, qr.1, qr.2, ?_⟩
        have e1 := splitFirst_sound openTag s pr.1 pr.2 (by rw [h1])
        have e2 := splitFirst_sound closeTag pr.2 qr.1 qr.2 (by rw [h2])
        rw [e1, e2]

/-- Witness for C3 at concrete inputs: `"ab<output> hi </output>cd"`
extracts to `"hi"`, and `"no tags"` is returned whole (stripped). -/
theorem claim_C3_witness :
    (containsSub openTag "ab".data = false ∧
      containsSub closeTag " hi ".data = false ∧
      extract_output_content
        ("ab".data ++ (openTag ++ (" hi ".data ++ (closeTag ++ "cd".data)))) =
        pyStrip " hi ".data) ∧
    extract_output_content "no tags".data = pyStrip "no tags".data := by
  constructor
  · exact ⟨by decide, by decide,
      claim_C3.1 "ab".data " hi ".data "cd".data (by decide) (by decide)⟩
  · refine claim_C3.2 "no tags".data ?_
    rintro ⟨a, x, b, h⟩
    have hlen := congrArg List.length h
    rw [List.length_append, List.length_append, List.length_append,
      List.length_append] at hlen
    rw [(by decide : ("no tags".data).length = 7),
      (by decide : openTag.length = 8),
      (by decide : closeTag.length = 9)] at hlen
    omega

/-- C10: with two (or more) disjoint tagged sections, the extraction
returns the stripped content of the first (leftmost) section only. -/
theorem claim_C10 :
    ∀ a x m y b : List Char,
      containsSub openTag a = false → containsSub closeTag x = false →
      extract_output_content
        (a ++ (openTag ++ (x ++ (closeTag ++
          (m ++ (openTag ++ (y ++ (closeTag ++ b)))))))) = pyStrip x := by
  intro a x m y b ha hx
  exact extract_first_section a x
    (m ++ (openTag ++ (y ++ (closeTag ++ b)))) ha hx

/-- Witness for C10: `"<output>a</output>x<output>b</output>"` extracts to
`"a"`, ignoring the second section. -/
theorem claim_C10_witness :
    containsSub openTag ([] : List Char) = false ∧
    containsSub closeTag "a".data = false ∧
    extract_output_content
      ([] ++ (openTag ++ ("a".data ++ (closeTag ++
        ("x".data ++ (openTag ++ ("b".data ++ (closeTag ++
          ([] : List Char))))))))) = pyStrip "a".data :=
  ⟨by decide, by decide,
    claim_C10 [] "a".data "x".data "b".data [] (by decide) (by decide)⟩

/-! ## Claim theorems for `NamesLocationsLoader.sample` -/

theorem pyChoice_mem (l : List String) (k : Nat) (x : String)
    (h : pyChoice l k = some x) : x ∈ l := by
  unfold pyChoice at h
  split at h
  · exact absurd h (by simp)
  · rename_i hne
    injection h with hx
    subst hx
    have hlen : 0 < l.length := by
      cases l with
      | nil => simp [List.isEmpty] at hne
      | cons a as => simp
    rw [List.getD_eq_getElem l "" (Nat.mod_lt k hlen)]
    exact List.getElem_mem _

/-- C7: every successful `sample()` draws each of its four fields from the
respective configured list, and each field depends only on its own random
draw (the four draws are independent; nothing is removed from the lists, so
draws across calls are with replacement). -/
theorem claim_C7 :
    ∀ (L : NamesLocationsLoader) (r : Nat × Nat × Nat × Nat)
      (s : SampledNames), L.sample r = some s →
      (s.patient_name ∈ L.patient_names ∧
        s.clinician_name ∈ L.clinician_names ∧
        s.provider ∈ L.providers ∧
        s.ward_clinic ∈ L.wards_clinics) ∧
      (∀ (r2 : Nat × Nat × Nat × Nat) (s2 : SampledNames),
        L.sample r2 = some s2 →
        (r.1 = r2.1 → s2.patient_name = s.patient_name) ∧
        (r.2.1 = r2.2.1 → s2.clinician_name = s.clinician_name) ∧
        (r.2.2.1 = r2.2.2.1 → s2.provider = s.provider) ∧
        (r.2.2.2 = r2.2.2.2 → s2.ward_clinic = s.ward_clinic)) := by
  intro L r s h
  unfold NamesLocationsLoader.sample at h
  cases h1 : pyChoice L.patient_names r.1 with
  | none => rw [h1] at h; exact absurd h (by simp)
  | some p =>
    cases h2 : pyChoice L.clinician_names r.2.1 with
    | none => rw [h1, h2] at h; exact absurd h (by simp)
    | some c =>
      cases h3 : pyChoice L.providers r.2.2.1 with
      | none => rw [h1, h2, h3] at h; exact absurd h (by simp)
      | some pv =>
        cases h4 : pyChoice L.wards_clinics r.2.2.2 with
        | none => rw [h1, h2, h3, h4] at h; exact absurd h (by simp)
        | some w =>
          rw [h1, h2, h3, h4] at h
          have hs : SampledNames.mk p c pv w = s := Option.some.inj h
          subst hs
          constructor
          · exact ⟨pyChoice_mem _ _ _ h1, pyChoice_mem _ _ _ h2,
              pyChoice_mem _ _ _ h3, pyChoice_mem _ _ _ h4⟩
          · intro r2 s2 h'
            unfold NamesLocationsLoader.sample at h'
            cases g1 : pyChoice L.patient_names r2.1 with
            | none => rw [g1] at h'; exact absurd h' (by simp)
            | some p2 =>
              cases g2 : pyChoice L.clinician_names r2.2.1 with
              | none => rw [g1, g2] at h'; exact absurd h' (by simp)
              | some c2 =>
                cases g3 : pyChoice L.providers r2.2.2.1 with
                | none => rw [g1, g2, g3] at h'; exact absurd h' (by simp)
                | some pv2 =>
                  cases g4 : pyChoice L.wards_clinics r2.2.2.2 with
                  | none => rw [g1, g2, g3, g4] at h'; exact absurd h' (by simp)
                  | some w2 =>
                    rw [g1, g2, g3, g4] at h'
                    have hs2 : SampledNames.mk p2 c2 pv2 w2 = s2 :=
                      Option.some.inj h'
                    subst hs2
                    refine ⟨?_, ?_, ?_, ?_⟩
                    · intro he; rw [← he] at g1; rw [g1] at h1
                      injection h1
                    · intro he; rw [← he] at g2; rw [g2] at h2
                      injection h2
                    · intro he; rw [← he] at g3; rw [g3] at h3
                      injection h3
                    · intro he; rw [← he] at g4; rw [g4] at h4
                      injection h4

/-- Witness for C7 at a concrete loader and concrete random draws. -/
theorem claim_C7_witness :
    loader0.sample (0, 1, 2, 3) =
      some (SampledNames.mk "Ada Lovelace" "Dr Smith" "St Mary" "Clinic B") ∧
    ((SampledNames.mk "Ada Lovelace" "Dr Smith" "St Mary"
        "Clinic B").patient_name ∈ loader0.patient_names ∧
      (SampledNames.mk "Ada Lovelace" "Dr Smith" "St Mary"
        "Clinic B").clinician_name ∈ loader0.clinician_names ∧
      (SampledNames.mk "Ada Lovelace" "Dr Smith" "St Mary"
        "Clinic B").provider ∈ loader0.providers ∧
      (SampledNames.mk "Ada Lovelace" "Dr Smith" "St Mary"
        "Clinic B").ward_clinic ∈ loader0.wards_clinics) :=
  ⟨by decide,
    (claim_C7 loader0 (0, 1, 2, 3)
      (SampledNames.mk "Ada Lovelace" "Dr Smith" "St Mary" "Clinic B")
      (by decide)).1⟩

/-! ## Claim theorems for `get_existing_profile_ids` -/

theorem scanGo_skips_malformed :
    ∀ (files : List ExistingFile) (acc : List String) (w : Nat),
      (∀ f ∈ files, f.isNonObject = false) →
      ∃ ids, scanGo acc w files =
          Except.ok (ids, w + (files.filter (fun f => f.isMalformed)).length) ∧
        scanGo acc 0 (files.filter (fun f => ¬ f.isMalformed)) =
          Except.ok (ids, 0) := by
  intro files
  induction files with
  | nil => intro acc w _; exact ⟨acc, by simp [scanGo], by simp [scanGo]⟩
  | cons f fs ih =>
    intro acc w hno
    have hno2 : ∀ g ∈ fs, g.isNonObject = false := fun g hg =>
      hno g (List.mem_cons_of_mem f hg)
    cases f with
    | malformed n =>
      obtain ⟨ids, h1, h2⟩ := ih acc (w + 1) hno2
      refine ⟨ids, ?_, ?_⟩
      · rw [show scanGo acc w (ExistingFile.malformed n :: fs) =
            scanGo acc (w + 1) fs from rfl, h1]
        have hcount : ((ExistingFile.malformed n :: fs).filter
            (fun f => f.isMalformed)).length =
            (fs.filter (fun f => f.isMalformed)).length + 1 := by
          simp [List.filter_cons, ExistingFile.isMalformed]
        rw [hcount]
        exact congrArg (fun z => Except.ok (ids, z)) (by omega)
      · have hfil : (ExistingFile.malformed n :: fs).filter
            (fun f => ¬ f.isMalformed) =
            fs.filter (fun f => ¬ f.isMalformed) := by
          simp [List.filter_cons, ExistingFile.isMalformed]
        rw [hfil]
        exact h2
    | nonObject n =>
      have := hno (ExistingFile.nonObject n) (List.mem_cons_self _ _)
      simp [ExistingFile.isNonObject] at this
    | object n kvs =>
      have hfil : (ExistingFile.object n kvs :: fs).filter
          (fun f => ¬ f.isMalformed) =
          ExistingFile.object n kvs ::
            fs.filter (fun f => ¬ f.isMalformed) := by
        simp [List.filter_cons, ExistingFile.isMalformed]
      have hcount : ((ExistingFile.object n kvs :: fs).filter
          (fun f => f.isMalformed)).length =
          (fs.filter (fun f => f.isMalformed)).length := by
        simp [List.filter_cons, ExistingFile.isMalformed]
      cases hl : kvs.lookup "profile" with
      | none =>
        have hstepL : ∀ (a : List String) (v : Nat) (gs : List ExistingFile),
            scanGo a v (ExistingFile.object n kvs :: gs) = scanGo a v gs := by
          intro a v gs
          show (match kvs.lookup "profile" with
            | some q => if q = "" then scanGo a v gs
                else scanGo (insertId q a) v gs
            | none => scanGo a v gs) = scanGo a v gs
          rw [hl]
        obtain ⟨ids, h1, h2⟩ := ih acc w hno2
        refine ⟨ids, ?_, ?_⟩
        · rw [hstepL acc w fs, h1, hcount]
        · rw [hfil, hstepL acc 0 (fs.filter (fun f => ¬ f.isMalformed)), h2]
      | some pid =>
        by_cases hpe : pid = ""
        · have hstepL : ∀ (a : List String) (v : Nat) (gs : List ExistingFile),
              scanGo a v (ExistingFile.object n kvs :: gs) = scanGo a v gs := by
            intro a v gs
            show (match kvs.lookup "profile" with
              | some q => if q = "" then scanGo a v gs
                  else scanGo (insertId q a) v gs
              | none => scanGo a v gs) = scanGo a v gs
            rw [hl]
            exact if_pos hpe
          obtain ⟨ids, h1, h2⟩ := ih acc w hno2
          refine ⟨ids, ?_, ?_⟩
          · rw [hstepL acc w fs, h1, hcount]
          · rw [hfil, hstepL acc 0 (fs.filter (fun f => ¬ f.isMalformed)), h2]
        · have hstepL : ∀ (a : List String) (v : Nat) (gs : List ExistingFile),
              scanGo a v (ExistingFile.object n kvs :: gs) =
                scanGo (insertId pid a) v gs := by
            intro a v gs
            show (match kvs.lookup "profile" with
              | some q => if q = "" then scanGo a v gs
                  else scanGo (insertId q a) v gs
              | none => scanGo a v gs) = scanGo (insertId pid a) v gs
            rw [hl]
            exact if_neg hpe
          obtain ⟨ids, h1, h2⟩ := ih (insertId pid acc) w hno2
          refine ⟨ids, ?_, ?_⟩
          · rw [hstepL acc w fs, h1, hcount]
          · rw [hfil, hstepL acc 0 (fs.filter (fun f => ¬ f.isMalformed)), h2]

/-- C9 counterexample: an existing output file that parses but is not a
JSON object ("lacks the expected structure") makes the scan raise an
uncaught `AttributeError` (from `data.get` on a non-dict), aborting it —
the file is not logged-and-ignored as the claim states. -/
theorem claim_C9_counterexample :
    get_existing_profile_ids [ExistingFile.nonObject "bad.json"] =
      Except.error "AttributeError: bad.json" := rfl

/-- C9 as amended: during the skip-existing scan, every file on which
`json.load` fails is logged with a warning and ignored, and the scan
continues over the remaining files; this holds only as long as no file
parses to a non-dict value (such a file aborts the scan).  The collected
ids equal those of the scan with the malformed files removed, and one
warning is logged per malformed file. -/
theorem claim_C9_amended :
    ∀ files : List ExistingFile,
      (∀ f ∈ files, f.isNonObject = false) →
      ∃ ids, get_existing_profile_ids files =
          Except.ok (ids, (files.filter (fun f => f.isMalformed)).length) ∧
        get_existing_profile_ids (files.filter (fun f => ¬ f.isMalformed)) =
          Except.ok (ids, 0) := by
  intro files hno
  obtain ⟨ids, h1, h2⟩ := scanGo_skips_malformed files [] 0 hno
  refine ⟨ids, ?_, by rw [get_existing_profile_ids, h2]⟩
  rw [get_existing_profile_ids, h1]
  exact congrArg (fun z => Except.ok (ids, z)) (Nat.zero_add _)

/-- Witness for the amended C9 on a concrete directory listing holding one
good object file and one malformed file. -/
theorem claim_C9_amended_witness :
    (∀ f ∈ [ExistingFile.object "a.json" [("profile", "p1")],
        ExistingFile.malformed "b.json"], f.isNonObject = false) ∧
    ∃ ids, get_existing_profile_ids
        [ExistingFile.object "a.json" [("profile", "p1")],
          ExistingFile.malformed "b.json"] =
        Except.ok (ids, ([ExistingFile.object "a.json" [("profile", "p1")],
          ExistingFile.malformed "b.json"].filter
            (fun f => f.isMalformed)).length) ∧
      get_existing_profile_ids
        ([ExistingFile.object "a.json" [("profile", "p1")],
          ExistingFile.malformed "b.json"].filter
            (fun f => ¬ f.isMalformed)) = Except.ok (ids, 0) :=
  ⟨by decide, claim_C9_amended
    [ExistingFile.object "a.json" [("profile", "p1")],
      ExistingFile.malformed "b.json"] (by decide)⟩

/-! ## Lemmas about the driver loops -/

theorem seqGo_spec (bp : Profile → Except String (String × String × String))
    (llm : Option (String → Except String String)) (clock : Int → DateTime) :
    ∀ (profiles : List Profile) (total i : Int),
      (∀ p ∈ profiles, isOkB (bp p) = true) →
      ∃ L, seqGo bp llm clock total i profiles = Except.ok L ∧
        L.map Outcome.profile = profiles.take ((total - i + 1).toNat) := by
  intro profiles
  induction profiles with
  | nil => intro total i _; exact ⟨[], rfl, by simp⟩
  | cons p ps ih =>
    intro total i hbp
    by_cases hi : i > total
    · refine ⟨[], ?_, ?_⟩
      · simp [seqGo, hi]
      · have h0 : (total - i + 1).toNat = 0 := by omega
        rw [h0]
        rfl
    · have hbphead := hbp p (List.mem_cons_self p ps)
      cases hbp1 : bp p with
      | error e => rw [hbp1] at hbphead; simp [isOkB] at hbphead
      | ok tr =>
        obtain ⟨L, hL, hmap⟩ := ih total (i + 1)
          (fun q hq => hbp q (List.mem_cons_of_mem p hq))
        have htake : (p :: ps).take ((total - i + 1).toNat) =
            p :: ps.take ((total - (i + 1) + 1).toNat) := by
          have h1 : (total - i + 1).toNat =
              (total - (i + 1) + 1).toNat + 1 := by omega
          rw [h1]
          rfl
        cases llm with
        | none =>
          refine ⟨⟨p, .saved (save_document tr.2.1 tr.2.2
            (generate_timestamp (clock i)) tr.1 none)⟩ :: L, ?_, ?_⟩
          · simp [seqGo, hi, hbp1, hL, Except.map]
          · simp [htake, hmap]
        | some g =>
          cases hg : g tr.1 with
          | error e =>
            refine ⟨⟨p, .errored tr.2.1 tr.2.2 e⟩ :: L, ?_, ?_⟩
            · simp [seqGo, hi, hbp1, hg, hL, Except.map]
            · simp [htake, hmap]
          | ok resp =>
            refine ⟨⟨p, .saved (save_document tr.2.1 tr.2.2
              (generate_timestamp (clock i)) tr.1
              (some ⟨extract_output_content resp.data⟩))⟩ :: L, ?_, ?_⟩
            · simp [seqGo, hi, hbp1, hg, hL, Except.map]
            · simp [htake, hmap]

theorem randGo_spec (bp : Profile → Except String (String × String × String))
    (llm : Option (String → Except String String)) (clock : Int → DateTime)
    (pick : Int → Profile) :
    ∀ (n : Nat) (total i : Int), (total + 1 - i).toNat = n →
      (∀ j : Int, isOkB (bp (pick j)) = true) →
      ∃ L, randGo bp llm clock pick total i = Except.ok L ∧ L.length = n := by
  intro n
  induction n with
  | zero =>
    intro total i h0 _
    have hi : i > total := by omega
    exact ⟨[], by rw [randGo, dif_pos hi], rfl⟩
  | succ m ihm =>
    intro total i hsucc hbp
    have hi : ¬ i > total := by omega
    have hbpi := hbp i
    cases hbp1 : bp (pick i) with
    | error e => rw [hbp1] at hbpi; simp [isOkB] at hbpi
    | ok tr =>
      obtain ⟨L, hL, hlen⟩ := ihm total (i + 1) (by omega) hbp
      cases llm with
      | none =>
        refine ⟨⟨pick i, .saved (save_document tr.2.1 tr.2.2
          (generate_timestamp (clock i)) tr.1 none)⟩ :: L, ?_, ?_⟩
        · rw [randGo, dif_neg hi]
          simp [hbp1, hL, Except.map]
        · simp [hlen]
      | some g =>
        cases hg : g tr.1 with
        | error e =>
          refine ⟨⟨pick i, .errored tr.2.1 tr.2.2 e⟩ :: L, ?_, ?_⟩
          · rw [randGo, dif_neg hi]
            simp [hbp1, hg, hL, Except.map]
          · simp [hlen]
        | ok resp =>
          refine ⟨⟨pick i, .saved (save_document tr.2.1 tr.2.2
            (generate_timestamp (clock i)) tr.1
            (some ⟨extract_output_content resp.data⟩))⟩ :: L, ?_, ?_⟩
          · rw [randGo, dif_neg hi]
            simp [hbp1, hg, hL, Except.map]
          · simp [hlen]

/-! ## Claim theorems for the driver loop -/

set_option maxRecDepth 100000 in
/-- C2 counterexample: the claim says an exception during *prompt building*
is caught and the loop continues, but `builder.build_prompt` is called
outside the `try` block.  With a prompt builder that raises on the first
profile, the whole run aborts with that error and the second profile is
never attempted. -/
theorem claim_C2_counterexample :
    mainRun ⟨"sequential", -1, false⟩ bpBad
        (some (fun _ => Except.ok "resp")) clock0 pick0 [] [profA, profB] =
      Except.error "boom" := rfl

/-- C2 as amended: an exception raised by the LLM `generate` call for one
profile is caught and recorded with the failing identifier, that profile
produces no saved document, and the loop — in either mode — continues with
the next iteration exactly as it would have; exceptions during prompt
building are not caught and abort the run. -/
theorem claim_C2_amended :
    ∀ (bp : Profile → Except String (String × String × String))
      (g : String → Except String String) (clock : Int → DateTime)
      (pick : Int → Profile) (total i : Int) (p : Profile)
      (ps : List Profile) (prompt sname pid e : String),
      bp p = Except.ok (prompt, sname, pid) → g prompt = Except.error e →
      ¬ i > total → pick i = p →
      (seqGo bp (some g) clock total i (p :: ps) =
        (seqGo bp (some g) clock total (i + 1) ps).map
          (fun L => ⟨p, PerDocResult.errored sname pid e⟩ :: L)) ∧
      (randGo bp (some g) clock pick total i =
        (randGo bp (some g) clock pick total (i + 1)).map
          (fun L => ⟨p, PerDocResult.errored sname pid e⟩ :: L)) ∧
      (∀ tail : List Outcome,
        savedDocs (⟨p, PerDocResult.errored sname pid e⟩ :: tail) =
          savedDocs tail) := by
  intro bp g clock pick total i p ps prompt sname pid e hbp hg hi hpick
  refine ⟨?_, ?_, ?_⟩
  · simp [seqGo, hi, hbp, hg]
  · rw [randGo, dif_neg hi]
    simp [hpick, hbp, hg]
  · intro tail
    simp [savedDocs]

set_option maxRecDepth 100000 in
/-- Witness for the amended C2, with a concrete builder, a failing LLM
client and two profiles. -/
theorem claim_C2_witness :
    bp0 profA = Except.ok ("PROMPT body one", "letter", "p1") ∧
    llmFail "PROMPT body one" = Except.error "llm down" ∧
    ¬ (1 : Int) > 2 ∧ pick0 1 = profA ∧
    ((seqGo bp0 (some llmFail) clock0 2 1 [profA, profB] =
        (seqGo bp0 (some llmFail) clock0 2 (1 + 1) [profB]).map
          (fun L => ⟨profA, PerDocResult.errored "letter" "p1" "llm down"⟩
            :: L)) ∧
      (randGo bp0 (some llmFail) clock0 pick0 2 1 =
        (randGo bp0 (some llmFail) clock0 pick0 2 (1 + 1)).map
          (fun L => ⟨profA, PerDocResult.errored "letter" "p1" "llm down"⟩
            :: L)) ∧
      (∀ tail : List Outcome,
        savedDocs (⟨profA,
            PerDocResult.errored "letter" "p1" "llm down"⟩ :: tail) =
          savedDocs tail)) :=
  ⟨rfl, rfl, by decide, rfl,
    claim_C2_amended bp0 llmFail clock0 pick0 2 1 profA [profB]
      "PROMPT body one" "letter" "p1" "llm down" rfl rfl (by decide) rfl⟩

/-- C4: in sequential mode with `count = -1`, under a prompt builder that
succeeds on every available profile, the driver performs exactly one
generation attempt per available profile, in source order, and stops after
the last one. -/
theorem claim_C4 :
    ∀ (bp : Profile → Except String (String × String × String))
      (llm : Option (String → Except String String)) (clock : Int → DateTime)
      (pick : Int → Profile) (files : List ExistingFile)
      (profiles : List Profile),
      (∀ p ∈ profiles, isOkB (bp p) = true) →
      ∃ L, mainRun ⟨"sequential", -1, false⟩ bp llm clock pick files
          profiles = Except.ok L ∧
        L.map Outcome.profile = profiles := by
  intro bp llm clock pick files profiles hbp
  obtain ⟨L, hL, hmap⟩ :=
    seqGo_spec bp llm clock profiles (profiles.length : Int) 1 hbp
  refine ⟨L, ?_, ?_⟩
  · simp [mainRun, hL]
  · rw [hmap]
    have h1 : ((profiles.length : Int) - 1 + 1).toNat = profiles.length := by
      omega
    rw [h1, List.take_length]

set_option maxRecDepth 100000 in
/-- Witness for C4 on two concrete profiles (the LLM client fails, which
still counts as one attempt per profile). -/
theorem claim_C4_witness :
    (∀ p ∈ [profA, profB], isOkB (bp0 p) = true) ∧
    ∃ L, mainRun ⟨"sequential", -1, false⟩ bp0 (some llmFail) clock0 pick0
        [] [profA, profB] = Except.ok L ∧
      L.map Outcome.profile = [profA, profB] :=
  ⟨by decide,
    claim_C4 bp0 (some llmFail) clock0 pick0 [] [profA, profB] (by decide)⟩

/-- C5: with `count = N` and `N` below the number of available profiles,
both the sequential and the random mode perform exactly `N` generation
attempts. -/
theorem claim_C5 :
    ∀ (bp : Profile → Except String (String × String × String))
      (llm : Option (String → Except String String)) (clock : Int → DateTime)
      (pick : Int → Profile) (files : List ExistingFile)
      (profiles : List Profile) (N : Nat),
      N < profiles.length →
      (∀ p ∈ profiles, isOkB (bp p) = true) →
      (∀ j : Int, isOkB (bp (pick j)) = true) →
      (∃ L, mainRun ⟨"sequential", (N : Int), false⟩ bp llm clock pick files
          profiles = Except.ok L ∧ L.length = N) ∧
      (∃ L, mainRun ⟨"random", (N : Int), false⟩ bp llm clock pick files
          profiles = Except.ok L ∧ L.length = N) := by
  intro bp llm clock pick files profiles N hN hbp hbpr
  have hne : ¬ ((N : Int) = -1) := by omega
  constructor
  · obtain ⟨L, hL, hmap⟩ := seqGo_spec bp llm clock profiles (N : Int) 1 hbp
    refine ⟨L, ?_, ?_⟩
    · simp [mainRun, hne, hL]
    · have hlen := congrArg List.length hmap
      rw [List.length_map, List.length_take] at hlen
      have h1 : ((N : Int) - 1 + 1).toNat = N := by omega
      rw [h1] at hlen
      omega
  · obtain ⟨L, hL, hlen⟩ :=
      randGo_spec bp llm clock pick N (N : Int) 1 (by omega) hbpr
    exact ⟨L, by simp [mainRun, hne, hL], hlen⟩

set_option maxRecDepth 100000 in
/-- Witness for C5 with `N = 1` and two available profiles. -/
theorem claim_C5_witness :
    1 < [profA, profB].length ∧
    (∀ p ∈ [profA, profB], isOkB (bp0 p) = true) ∧
    ((∃ L, mainRun ⟨"sequential", ((1 : Nat) : Int), false⟩ bp0
        (some llmFail) clock0 pick0 [] [profA, profB] = Except.ok L ∧
        L.length = 1) ∧
      (∃ L, mainRun ⟨"random", ((1 : Nat) : Int), false⟩ bp0 (some llmFail)
        clock0 pick0 [] [profA, profB] = Except.ok L ∧ L.length = 1)) :=
  ⟨by decide, by decide,
    claim_C5 bp0 (some llmFail) clock0 pick0 [] [profA, profB] 1
      (by decide) (by decide) (fun _ => rfl)⟩

/-- C6: with `skip_existing = true` and a successful scan of the existing
output files, the driver behaves exactly as a run without skip-existing on
the pre-filtered candidate set: profiles whose identifier appears among the
collected `profile` fields are removed before `total_docs` and the
mode-selection logic are computed. -/
theorem claim_C6 :
    ∀ (cfg : SelectionConfig)
      (bp : Profile → Except String (String × String × String))
      (llm : Option (String → Except String String)) (clock : Int → DateTime)
      (pick : Int → Profile) (files : List ExistingFile)
      (profiles : List Profile) (ids : List String) (w : Nat),
      cfg.skip_existing = true →
      get_existing_profile_ids files = Except.ok (ids, w) →
      mainRun cfg bp llm clock pick files profiles =
        mainRun ⟨cfg.mode, cfg.count, false⟩ bp llm clock pick files
          (profiles.filter (fun p => ¬ ids.contains p.id)) := by
  intro cfg bp llm clock pick files profiles ids w hskip hscan
  simp [mainRun, hskip, hscan, filter_existing_profiles, Except.map]

set_option maxRecDepth 100000 in
/-- Witness for C6: a directory with one saved document for profile `p1`
filters `profA` out of the candidate set. -/
theorem claim_C6_witness :
    (SelectionConfig.mk "sequential" (-1) true).skip_existing = true ∧
    get_existing_profile_ids
        [ExistingFile.object "a.json" [("profile", "p1")]] =
      Except.ok (["p1"], 0) ∧
    mainRun ⟨"sequential", -1, true⟩ bp0 (some llmFail) clock0 pick0
        [ExistingFile.object "a.json" [("profile", "p1")]]
        [profA, profB] =
      mainRun ⟨"sequential", -1, false⟩ bp0 (some llmFail) clock0 pick0
        [ExistingFile.object "a.json" [("profile", "p1")]]
        ([profA, profB].filter (fun p => ¬ ["p1"].contains p.id)) :=
  ⟨rfl, rfl,
    claim_C6 ⟨"sequential", -1, true⟩ bp0 (some llmFail) clock0 pick0
      [ExistingFile.object "a.json" [("profile", "p1")]]
      [profA, profB] ["p1"] 0 rfl rfl⟩
